import Mathlib

/-!
Verification of the goodneighbor-server WebSocket gateway core.

This file shallowly embeds the session/message core of the server:
the error classifier (utils/error-utils.ts), the message codec and router
(services/connection/message-router.ts), the per-kind message handlers
(services/handlers/*), the connection manager (connection-manager.ts) and
the SSE stream reassembly loop (services/deepseek-client.ts).  JavaScript
strings are modelled as Lean strings, JavaScript numbers used for
confidence scores as rationals, timestamps as naturals, JSON values as an
inductive type, and backend collaborators (MCP tool service, DeepSeek,
Algolia) as oracle functions supplied to the handlers.  Each embedded
definition is a direct translation of the corresponding source function.
-/

namespace GoodNeighbor

/-! ## JavaScript string primitives

Helpers mirroring the JavaScript string operations the source uses:
`String.prototype.includes` (substring test), `toLowerCase`, `trim`,
and the `x || y` fallback idiom on possibly-absent strings.
All operate through the underlying character list so that concrete
instances reduce inside the kernel. -/

/-- Substring test on character lists: does `pat` occur contiguously in `text`?
Mirrors `String.prototype.includes`. -/
def subOccurs (pat : List Char) : List Char → Bool
  | [] => pat.isEmpty
  | c :: rest => pat.isPrefixOf (c :: rest) || subOccurs pat rest

/-- JavaScript `s.includes(t)` on Lean strings. -/
def jsIncludes (s t : String) : Bool := subOccurs t.data s.data

/-- JavaScript `s.toLowerCase()` (ASCII-adequate model via `Char.toLower`). -/
def jsLower (s : String) : String := ⟨s.data.map Char.toLower⟩

/-- ASCII whitespace recognizer used by the `trim` model. -/
def isJsWhitespace (c : Char) : Bool :=
  c = ' ' || c = '\n' || c = '\t' || c = '\r'

/-- Trim a character list at both ends. -/
def trimChars (l : List Char) : List Char :=
  ((l.dropWhile isJsWhitespace).reverse.dropWhile isJsWhitespace).reverse

/-- JavaScript `s.trim()`. -/
def jsTrim (s : String) : String := ⟨trimChars s.data⟩

/-- JavaScript `x || dflt` where `x` is a possibly-absent string: the
default is used when `x` is `undefined` or the empty string (falsy). -/
def jsOrStr (x : Option String) (dflt : String) : String :=
  match x with
  | none => dflt
  | some s => if s = "" then dflt else s

/-! ## Error taxonomy and classifier (src/utils/error-utils.ts, src/types/messages.ts) -/

/-- The `ErrorCode` enum of `src/types/messages.ts`. -/
inductive ErrorCode where
  | AUTHENTICATION_FAILED
  | INVALID_MESSAGE_FORMAT
  | TOOL_CALL_FAILED
  | INTERNAL_SERVER_ERROR
  | NOT_AUTHENTICATED
  | INVALID_PARAMETERS
  | RATE_LIMIT_EXCEEDED
  | RESOURCE_NOT_FOUND
  | PERMISSION_DENIED
  | SERVICE_UNAVAILABLE
  | TIMEOUT
  deriving DecidableEq, Repr

/-- Direct translation of `determineErrorCode` from `src/utils/error-utils.ts`.
The source signature takes exactly two parameters, the error (whose message
string we model directly) and an optional details string; several call sites
pass a third default-code argument, which has no corresponding parameter and
is therefore ignored by the function. -/
def determineErrorCode (error : String) (details : Option String) : ErrorCode :=
  let errorMessage := jsLower error
  let errorDetails := jsLower (details.getD "")
  if jsIncludes errorMessage "timeout" || jsIncludes errorMessage "timed out" ||
     jsIncludes errorMessage "etimedout" || jsIncludes errorDetails "timeout" then
    .TIMEOUT
  else if jsIncludes errorMessage "authentication" || jsIncludes errorMessage "auth" ||
     jsIncludes errorMessage "unauthorized" || jsIncludes errorMessage "api key" then
    .AUTHENTICATION_FAILED
  else if jsIncludes errorMessage "permission" || jsIncludes errorMessage "forbidden" ||
     jsIncludes errorMessage "access denied" then
    .PERMISSION_DENIED
  else if jsIncludes errorMessage "not found" || jsIncludes errorMessage "404" ||
     jsIncludes errorMessage "does not exist" then
    .RESOURCE_NOT_FOUND
  else if jsIncludes errorMessage "rate limit" || jsIncludes errorMessage "too many requests" ||
     jsIncludes errorMessage "429" then
    .RATE_LIMIT_EXCEEDED
  else if jsIncludes errorMessage "invalid" || jsIncludes errorMessage "parameter" ||
     jsIncludes errorMessage "argument" || jsIncludes errorMessage "bad request" ||
     jsIncludes errorMessage "400" then
    .INVALID_PARAMETERS
  else if jsIncludes errorMessage "unavailable" || jsIncludes errorMessage "service" ||
     jsIncludes errorMessage "503" then
    .SERVICE_UNAVAILABLE
  else
    .INTERNAL_SERVER_ERROR

/-- One precedence rule of the classifier: token lists matched against the
lowercased message and, separately, the lowercased details text, together
with the error kind returned on a match. -/
structure TokenRule where
  msgTokens : List String
  detailTokens : List String
  code : ErrorCode

/-- Does a rule fire on a (lowercased) message and details pair? -/
def ruleFires (m d : String) (r : TokenRule) : Bool :=
  r.msgTokens.any (fun t => jsIncludes m t) || r.detailTokens.any (fun t => jsIncludes d t)

/-- First rule that fires wins; `INTERNAL_SERVER_ERROR` when none does. -/
def firstRuleCode (m d : String) : List TokenRule → ErrorCode
  | [] => .INTERNAL_SERVER_ERROR
  | r :: rs => if ruleFires m d r then r.code else firstRuleCode m d rs

/-- The precedence rules exactly as the source orders its token checks,
with the details text consulted only where the source consults it
(solely the timeout token). -/
def sourceRules : List TokenRule :=
  [ ⟨["timeout", "timed out", "etimedout"], ["timeout"], .TIMEOUT⟩,
    ⟨["authentication", "auth", "unauthorized", "api key"], [], .AUTHENTICATION_FAILED⟩,
    ⟨["permission", "forbidden", "access denied"], [], .PERMISSION_DENIED⟩,
    ⟨["not found", "404", "does not exist"], [], .RESOURCE_NOT_FOUND⟩,
    ⟨["rate limit", "too many requests", "429"], [], .RATE_LIMIT_EXCEEDED⟩,
    ⟨["invalid", "parameter", "argument", "bad request", "400"], [], .INVALID_PARAMETERS⟩,
    ⟨["unavailable", "service", "503"], [], .SERVICE_UNAVAILABLE⟩ ]

/-- The spec reading of the classifier (claim C3): every token list is
matched against both the message and the details text. -/
def specRules : List TokenRule :=
  [ ⟨["timeout", "timed out", "etimedout"], ["timeout", "timed out", "etimedout"], .TIMEOUT⟩,
    ⟨["authentication", "auth", "unauthorized", "api key"],
      ["authentication", "auth", "unauthorized", "api key"], .AUTHENTICATION_FAILED⟩,
    ⟨["permission", "forbidden", "access denied"],
      ["permission", "forbidden", "access denied"], .PERMISSION_DENIED⟩,
    ⟨["not found", "404", "does not exist"],
      ["not found", "404", "does not exist"], .RESOURCE_NOT_FOUND⟩,
    ⟨["rate limit", "too many requests", "429"],
      ["rate limit", "too many requests", "429"], .RATE_LIMIT_EXCEEDED⟩,
    ⟨["invalid", "parameter", "argument", "bad request", "400"],
      ["invalid", "parameter", "argument", "bad request", "400"], .INVALID_PARAMETERS⟩,
    ⟨["unavailable", "service", "503"],
      ["unavailable", "service", "503"], .SERVICE_UNAVAILABLE⟩ ]

/-- Classifier as claim C3 words it: first match in precedence order with
each token list matched over message and details alike. -/
def classifierPerClaim (error : String) (details : Option String) : ErrorCode :=
  firstRuleCode (jsLower error) (jsLower (details.getD "")) specRules

/-- Classifier reorganized as a first-match rule scan, with details
consulted only for the timeout token, as the source does. -/
def classifierAmended (error : String) (details : Option String) : ErrorCode :=
  firstRuleCode (jsLower error) (jsLower (details.getD "")) sourceRules

/-! ## JSON values and frame validation (message-router.ts)

`routeMessage` parses the raw frame with `JSON.parse` and then checks
`!parsedData || typeof parsedData !== 'object' || !parsedData.type ||
!parsedData.id`.  We model parsed JSON values inductively (numbers as
integers, which covers every value the checks distinguish except NaN)
together with JavaScript truthiness and `typeof`. -/

/-- Parsed JSON values. -/
inductive Json where
  | null
  | bool (b : Bool)
  | num (n : Int)
  | str (s : String)
  | arr (elems : List Json)
  | obj (fields : List (String × Json))

/-- JavaScript truthiness of a parsed JSON value. -/
def Json.truthy : Json → Bool
  | .null => false
  | .bool b => b
  | .num n => n != 0
  | .str s => s != ""
  | .arr _ => true
  | .obj _ => true

/-- Does `typeof v === 'object'` hold?  (`typeof null` is also "object",
but the truthiness check already rejects null.) -/
def Json.typeofObject : Json → Bool
  | .null => true
  | .arr _ => true
  | .obj _ => true
  | _ => false

/-- JavaScript property read `v[name]`: `none` models `undefined`. -/
def Json.getProp (v : Json) (name : String) : Option Json :=
  match v with
  | .obj fields => (fields.find? (fun f => f.1 = name)).map (·.2)
  | _ => none

/-- Truthiness of a possibly-undefined value (`undefined` is falsy). -/
def truthyOpt : Option Json → Bool
  | none => false
  | some v => v.truthy

/-- The frame validation of `MessageRouter.routeMessage`: the parsed value
must be truthy, of object type, and its `type` and `id` members must be
truthy; otherwise the router throws "Invalid message format". -/
def frameValid (v : Json) : Bool :=
  v.truthy && v.typeofObject && truthyOpt (v.getProp "type") && truthyOpt (v.getProp "id")

/-- Frame acceptance as claim C9 words it: the parsed value is an object
that carries a string `kind` (`type`) and a string `correlationId` (`id`). -/
def frameValidPerClaim (v : Json) : Bool :=
  match v with
  | .obj _ =>
    (match v.getProp "type" with | some (.str _) => true | _ => false) &&
    (match v.getProp "id" with | some (.str _) => true | _ => false)
  | _ => false

/-- Frame acceptance as amended: the parsed value is an object or array
whose `type` and `id` members are present and truthy, so non-string but
truthy kinds are accepted and empty-string kinds are rejected. -/
def frameValidAmended (v : Json) : Bool :=
  match v with
  | .arr _ => truthyOpt (v.getProp "type") && truthyOpt (v.getProp "id")
  | .obj _ => truthyOpt (v.getProp "type") && truthyOpt (v.getProp "id")
  | _ => false

/-! ## Protocol model: connection state, envelopes, backend calls

`ConnectionState` is `src/services/connection/connection-state.ts`.
Outbound envelopes carry the correlation id they echo; a correlation id is
either the one taken from the request or a freshly synthesized UUID
(`handleMessageProcessingError` calls `uuidv4()` when no message id is
available), which we represent abstractly.  Handler effects are captured
as the ordered list of envelopes sent, the ordered list of backend calls
issued, the updated connection state and any scheduled actions. -/

/-- Per-connection state (`connection-state.ts`).  The socket itself is
left abstract; socket effects appear as outputs of the operations. -/
structure Conn where
  id : String
  isAuthenticated : Bool
  lastPing : Nat
  pendingPong : Bool
  deriving DecidableEq, Repr

/-- Correlation id on an outbound envelope: echoed from the request, or
freshly synthesized (`uuidv4()`) when no request id was available. -/
inductive Corr where
  | given (id : String)
  | fresh
  deriving DecidableEq, Repr

/-- A tool suggestion as produced by the DeepSeek client
(`{tool, description, confidence, suggestedArgs}`). -/
structure Suggestion where
  tool : String
  description : String
  confidence : Rat
  suggestedArgs : Json

/-- One chat message (`{role, content}`). -/
structure ChatMsg where
  role : String
  content : String

/-- Outbound envelopes (`ServerMessageType` variants of messages.ts),
restricted to the fields the embedded handlers populate. -/
inductive OutMsg where
  | authResult (id : String) (success : Bool) (error : Option String)
  | pong (id : String) (timestamp : Nat)
  | statusMsg (id : String) (text : String)
  | toolResult (id : String) (tool : String) (data : Json)
  | chatCompletionResult (id : String) (data : Json)
  | chatCompletionChunk (id : String) (data : Json)
  | toolSuggestionsEnvelope (id : String) (suggestions : List Suggestion) (originalQuery : String)
  | nlSearchResult (id : String) (success : Bool) (searchParams : Json) (searchResults : Option Json)
  | errorEnvelope (corr : Corr) (code : ErrorCode) (message : String)

/-- Calls issued against the backend collaborators. -/
inductive BackendCall where
  | mcpCallTool (tool : String) (args : Json)
  | mcpFormatTools
  | deepseekCompletionWithTools
  | deepseekStream
  | algoliaSearch (query : String)
  | algoliaEnhance (params : Json) (query : String)

/-- Deferred side effects a handler schedules. -/
inductive Action where
  | scheduleTerminate (delayMs : Nat)
  deriving DecidableEq, Repr

/-- Result of running one handler: envelopes sent, backend calls issued,
updated connection state, scheduled actions. -/
structure HOut where
  msgs : List OutMsg
  calls : List BackendCall
  conn : Conn
  actions : List Action

/-- MCP `callTool` result shape. -/
structure McpResult where
  success : Bool
  data : Json
  error : Option String
  details : Option String

/-- Algolia search service result shape. -/
structure SearchResult where
  success : Bool
  searchParams : Option Json
  searchResults : Option Json
  error : Option String
  details : Option String

/-- DeepSeek `createChatCompletionWithTools` result shape. -/
structure CompletionResult where
  success : Bool
  data : Json
  error : Option String
  details : Option String
  toolSuggestions : Option (List Suggestion)

/-- The backend collaborators, supplied as oracles: the MCP tool service,
the DeepSeek completion analysis (per-request result), the Algolia search
service and its parameter enhancer. -/
structure Oracles where
  mcpCall : String → Json → McpResult
  completion : CompletionResult
  algoliaSearch : String → SearchResult
  enhanceParams : Json → String → Json

/-! ## Authentication (connection-validator.ts, auth-handler.ts) -/

/-- The `sendErrorMessage` envelope of `utils/error-handler.ts`. -/
def errorMsgOut (correlationId : String) (message : String) (code : ErrorCode) : OutMsg :=
  .errorEnvelope (.given correlationId) code message

/-- `checkAuthentication`: when the connection is not authenticated, send a
`NOT_AUTHENTICATED` error echoing the triggering message id and report
failure. -/
def checkAuthentication (conn : Conn) (messageId : String) : Bool × List OutMsg :=
  if conn.isAuthenticated then (true, [])
  else (false, [errorMsgOut messageId "Not authenticated" .NOT_AUTHENTICATED])

/-- `validateAuthentication`: trim both the candidate key and the
configured secret, compare for equality, set the flag and reply
`auth_result` accordingly.  Returns (isValid, updated connection, sent
envelopes). -/
def validateAuthentication (secret : String) (conn : Conn) (id apiKey : String) :
    Bool × Conn × List OutMsg :=
  let receivedApiKey := if apiKey = "" then "" else jsTrim apiKey
  let expectedApiKey := if secret = "" then "" else jsTrim secret
  if receivedApiKey = expectedApiKey then
    (true, { conn with isAuthenticated := true }, [.authResult id true none])
  else
    (false, conn, [.authResult id false (some "Invalid API key")])

/-- `AuthMessageHandler.handle`: run validation; on failure schedule
socket termination after a fixed 1000 ms delay. -/
def authHandler (secret : String) (conn : Conn) (id apiKey : String) : HOut :=
  let r := validateAuthentication secret conn id apiKey
  { msgs := r.2.2, calls := [], conn := r.2.1,
    actions := if r.1 then [] else [.scheduleTerminate 1000] }

/-! ## Ping, tool call, tool selection handlers -/

/-- `PingMessageHandler.handle`: update liveness bookkeeping and reply
`pong` — with no authentication check. -/
def pingHandler (now : Nat) (conn : Conn) (id : String) : HOut :=
  { msgs := [.pong id now], calls := [],
    conn := { conn with lastPing := now, pendingPong := false }, actions := [] }

/-- `ToolCallMessageHandler.handle`. -/
def toolCallHandler (o : Oracles) (conn : Conn) (id tool : String) (args : Json) : HOut :=
  match checkAuthentication conn id with
  | (false, errs) => { msgs := errs, calls := [], conn := conn, actions := [] }
  | (true, _) =>
    let st : OutMsg := .statusMsg id ("Processing tool call: " ++ tool)
    let result := o.mcpCall tool args
    if result.success then
      { msgs := [st, .toolResult id tool result.data],
        calls := [.mcpCallTool tool args], conn := conn, actions := [] }
    else
      { msgs := [st, errorMsgOut id (jsOrStr result.error "Tool call failed")
                  (determineErrorCode (jsOrStr result.error "") result.details)],
        calls := [.mcpCallTool tool args], conn := conn, actions := [] }

/-- `ToolSelectionMessageHandler.handle`. -/
def toolSelectionHandler (o : Oracles) (conn : Conn) (id toolName : String) (args : Json) : HOut :=
  match checkAuthentication conn id with
  | (false, errs) => { msgs := errs, calls := [], conn := conn, actions := [] }
  | (true, _) =>
    let st : OutMsg := .statusMsg id ("Processing tool selection: " ++ toolName)
    let result := o.mcpCall toolName args
    if result.success then
      { msgs := [st, .toolResult id toolName result.data],
        calls := [.mcpCallTool toolName args], conn := conn, actions := [] }
    else
      { msgs := [st, errorMsgOut id (jsOrStr result.error "Tool call failed")
                  (determineErrorCode (jsOrStr result.error "") result.details)],
        calls := [.mcpCallTool toolName args], conn := conn, actions := [] }

/-! ## Natural language search handler (natural-language-search-handler.ts) -/

/-- Options carried by a `natural_language_search` request. -/
structure SearchOptions where
  enhanceExisting : Bool
  existingParams : Option Json

/-- The shared "send the search result or a classified error" tail of the
natural language search handler. -/
def nlSearchReply (id : String) (result : SearchResult) : OutMsg :=
  if result.success then
    .nlSearchResult id true (result.searchParams.getD (.obj [])) result.searchResults
  else
    errorMsgOut id (jsOrStr result.error "Resource not found")
      (determineErrorCode (jsOrStr result.error "") result.details)

/-- `NaturalLanguageSearchMessageHandler.handle`. -/
def nlSearchHandler (o : Oracles) (conn : Conn) (id query : String)
    (options : Option SearchOptions) : HOut :=
  match checkAuthentication conn id with
  | (false, errs) => { msgs := errs, calls := [], conn := conn, actions := [] }
  | (true, _) =>
    let st : OutMsg := .statusMsg id ("Processing natural language search: \"" ++ query ++ "\"")
    match options with
    | some opts =>
      match opts.existingParams with
      | some params =>
        if opts.enhanceExisting then
          let enhanced := o.enhanceParams params query
          let sr := o.mcpCall "search_posts" enhanced
          let calls : List BackendCall :=
            [.algoliaEnhance params query, .mcpCallTool "search_posts" enhanced]
          if sr.success then
            { msgs := [st, nlSearchReply id ⟨true, some enhanced, some sr.data, none, none⟩],
              calls := calls, conn := conn, actions := [] }
          else
            let thrown := jsOrStr sr.error "Search failed"
            { msgs := [st, errorMsgOut id (jsOrStr (some thrown) "Internal server error")
                        (determineErrorCode thrown none)],
              calls := calls, conn := conn, actions := [] }
        else
          { msgs := [st, nlSearchReply id (o.algoliaSearch query)],
            calls := [.algoliaSearch query], conn := conn, actions := [] }
      | none =>
        { msgs := [st, nlSearchReply id (o.algoliaSearch query)],
          calls := [.algoliaSearch query], conn := conn, actions := [] }
    | none =>
      { msgs := [st, nlSearchReply id (o.algoliaSearch query)],
        calls := [.algoliaSearch query], conn := conn, actions := [] }

/-! ## Chat completion handler (chat-completion-handler.ts)

The non-streaming path fetches the MCP tool list, asks DeepSeek for a
completion with tool analysis, and then either forwards the completion
result, forwards the suggestion list, or auto-executes a high-confidence
suggestion.  The payload-field defaulting applied when building
`chat_completion_result` envelopes carries the backend data through
unchanged in all claim-relevant respects, so the envelope is modelled as
carrying the raw result data. -/

/-- Content of the last chat message (`messages[messages.length - 1]
.content`); the source indexes the last element directly and is only
reached with a non-empty message list. -/
def lastContent (messages : List ChatMsg) : String :=
  (messages.getLast?).elim "" (·.content)

/-- Descending-by-confidence ordering used to model the stable JavaScript
`sort((a, b) => b.confidence - a.confidence)`.  Any stable sort realizes
the JavaScript one; the embedding uses insertion sort. -/
def confGe (a b : Suggestion) : Prop := b.confidence ≤ a.confidence

instance : DecidableRel confGe :=
  fun a b => inferInstanceAs (Decidable (b.confidence ≤ a.confidence))

instance : IsTotal Suggestion confGe := ⟨fun a b => le_total b.confidence a.confidence⟩

instance : IsTrans Suggestion confGe := ⟨fun _ _ _ h1 h2 => le_trans h2 h1⟩

/-- The auto-execution pick of `handleToolSuggestions`: filter suggestions
with confidence at least 0.9, sort descending by confidence (stably), take
the first. -/
def highConfidencePick (sugs : List Suggestion) : Option Suggestion :=
  ((sugs.filter (fun t => decide ((0.9 : Rat) ≤ t.confidence))).insertionSort confGe).head?

/-- `ChatCompletionMessageHandler.handleAutoSearchPosts`: auto-executed
`search_posts` goes through the Algolia search service and replies with a
`natural_language_search_result` envelope (or a classified error). -/
def handleAutoSearchPosts (o : Oracles) (messageId originalQuery : String) :
    List OutMsg × List BackendCall :=
  let sr := o.algoliaSearch originalQuery
  if sr.success then
    ([.nlSearchResult messageId true (sr.searchParams.getD (.obj []))
        (some (sr.searchResults.getD (.obj [])))],
     [.algoliaSearch originalQuery])
  else
    ([errorMsgOut messageId (jsOrStr sr.error "Resource not found")
        (determineErrorCode (jsOrStr sr.error "") sr.details)],
     [.algoliaSearch originalQuery])

/-- `ChatCompletionMessageHandler.handleAutoExecuteTool`: auto-executed
tools other than `search_posts` go through the MCP tool service and reply
with a `tool_result` envelope (or a classified error). -/
def handleAutoExecuteTool (o : Oracles) (messageId tool : String) (args : Json) :
    List OutMsg × List BackendCall :=
  let toolRes := o.mcpCall tool args
  if toolRes.success then
    ([.toolResult messageId tool toolRes.data], [.mcpCallTool tool args])
  else
    ([errorMsgOut messageId (jsOrStr toolRes.error "Tool call failed")
        (determineErrorCode (jsOrStr toolRes.error "") toolRes.details)],
     [.mcpCallTool tool args])

/-- `ChatCompletionMessageHandler.handleToolSuggestions`: if some
suggestion reaches confidence 0.9 auto-execute the highest-confidence one
(dispatching `search_posts` specially), otherwise forward the whole
suggestion list with the original query. -/
def handleToolSuggestions (o : Oracles) (messageId : String)
    (toolSuggestions : List Suggestion) (messages : List ChatMsg) :
    List OutMsg × List BackendCall :=
  match highConfidencePick toolSuggestions with
  | some highConfidenceTool =>
    if highConfidenceTool.tool = "search_posts" then
      handleAutoSearchPosts o messageId (lastContent messages)
    else
      handleAutoExecuteTool o messageId highConfidenceTool.tool highConfidenceTool.suggestedArgs
  | none =>
    ([.toolSuggestionsEnvelope messageId toolSuggestions (lastContent messages)], [])

/-- `ChatCompletionMessageHandler.handleNonStreamingChatCompletion`. -/
def handleNonStreamingChatCompletion (o : Oracles) (messageId : String)
    (messages : List ChatMsg) : List OutMsg × List BackendCall :=
  let baseCalls : List BackendCall := [.mcpFormatTools, .deepseekCompletionWithTools]
  let result := o.completion
  if result.success then
    match result.toolSuggestions with
    | some sugs =>
      if sugs.isEmpty then
        ([.chatCompletionResult messageId result.data], baseCalls)
      else
        let r := handleToolSuggestions o messageId sugs messages
        (r.1, baseCalls ++ r.2)
    | none => ([.chatCompletionResult messageId result.data], baseCalls)
  else
    ([errorMsgOut messageId (jsOrStr result.error "Internal server error")
        (determineErrorCode (jsOrStr result.error "") result.details)],
     baseCalls)

/-- `ChatCompletionMessageHandler.handle`: authentication gate, status
envelope, then the streaming or non-streaming path.  The streaming path
registers listeners on the DeepSeek stream emitter; the envelopes those
listeners emit per event are modelled separately below. -/
def chatCompletionHandler (o : Oracles) (conn : Conn) (id : String)
    (messages : List ChatMsg) (stream : Bool) : HOut :=
  match checkAuthentication conn id with
  | (false, errs) => { msgs := errs, calls := [], conn := conn, actions := [] }
  | (true, _) =>
    let st : OutMsg := .statusMsg id "Processing chat completion"
    if stream then
      { msgs := [st], calls := [.deepseekStream], conn := conn, actions := [] }
    else
      let r := handleNonStreamingChatCompletion o id messages
      { msgs := st :: r.1, calls := r.2, conn := conn, actions := [] }

/-- Envelope emitted by the streaming error listener of
`handleStreamingChatCompletion`: the source invokes `determineErrorCode`
with `ErrorCode.TIMEOUT` as a third argument, but the function declares
only two parameters, so that argument is ignored and non-matching causes
classify to the function's own INTERNAL_SERVER_ERROR default. -/
def streamingErrorEnvelope (messageId errMessage : String) (errDetails : Option String) : OutMsg :=
  errorMsgOut messageId (jsOrStr (some errMessage) "Streaming error")
    (determineErrorCode errMessage errDetails)

/-! ## Message router (message-router.ts) -/

/-- Typed inbound client messages, as dispatched by the router switch. -/
inductive ClientMessage where
  | auth (id apiKey : String)
  | toolCall (id tool : String) (args : Json)
  | ping (id : String)
  | chatCompletion (id : String) (messages : List ChatMsg) (stream : Bool)
  | toolSelection (id toolName : String) (args : Json) (originalMessageId : String)
  | nlSearch (id query : String) (options : Option SearchOptions)

/-- Dispatch of a decoded message to its handler (the router switch over
known kinds). -/
def dispatchClientMessage (secret : String) (o : Oracles) (now : Nat) (conn : Conn) :
    ClientMessage → HOut
  | .auth id apiKey => authHandler secret conn id apiKey
  | .toolCall id tool args => toolCallHandler o conn id tool args
  | .ping id => pingHandler now conn id
  | .chatCompletion id messages stream => chatCompletionHandler o conn id messages stream
  | .toolSelection id toolName args _ => toolSelectionHandler o conn id toolName args
  | .nlSearch id query options => nlSearchHandler o conn id query options

/-- Envelope sent by `handleMessageProcessingError` when invoked without a
message id, as the router catch block does: a freshly synthesized
correlation id and a text-classified code. -/
def processingErrorEnvelope (errMsg : String) : OutMsg :=
  .errorEnvelope .fresh (determineErrorCode errMsg none)
    (jsOrStr (some errMsg) "Internal server error")

/-- Message kinds the router switch recognizes.  The three media kinds are
imported by the router but their enum member values are not among the
provided sources; they are modelled by their conventional snake_case
values (no claim depends on them). -/
def knownKinds : List String :=
  ["auth", "tool_call", "ping", "chat_completion", "tool_selection",
   "natural_language_search", "start_media_upload", "media_chunk", "end_media_upload"]

/-- String interpolation of a JSON value into the unknown-kind error
message (JavaScript template-literal conversion; the composite cases are
approximated and are not reached by any theorem below). -/
def jsDisplay : Json → String
  | .str s => s
  | .num n => toString n
  | .bool true => "true"
  | .bool false => "false"
  | .null => "null"
  | .arr _ => ""
  | .obj _ => "[object Object]"

/-- An inbound raw frame after `JSON.parse`: either the parse threw (with
some runtime-dependent syntax-error message) or produced a value. -/
inductive Frame where
  | parseFail (runtimeMsg : String)
  | parsed (v : Json)

/-- Result of routing one frame: envelopes written back, and whether the
router removed the session (it never does). -/
structure RouteOut where
  sent : List OutMsg
  sessionRemoved : Bool

/-- `MessageRouter.routeMessage`: parse (already performed in `Frame`),
validate the frame shape, dispatch by kind; parse failures, validation
failures and unknown kinds all funnel into the catch block, which sends a
text-classified error under a synthesized correlation id and leaves the
session alone.  Dispatch of well-formed known-kind frames is abstracted by
the `dispatch` argument (payload extraction from raw JSON is not
claim-relevant). -/
def routeMessage (dispatch : String → Json → List OutMsg) : Frame → RouteOut
  | .parseFail m => ⟨[processingErrorEnvelope m], false⟩
  | .parsed v =>
    if frameValid v then
      let t := (v.getProp "type").getD .null
      match t with
      | .str s =>
        if knownKinds.contains s then ⟨dispatch s v, false⟩
        else ⟨[processingErrorEnvelope ("Unknown message type: " ++ s)], false⟩
      | other => ⟨[processingErrorEnvelope ("Unknown message type: " ++ jsDisplay other)], false⟩
    else
      ⟨[processingErrorEnvelope "Invalid message format"], false⟩

/-! ## Connection manager (connection-manager.ts)

The connection table is a JavaScript `Map` keyed by UUID connection ids;
we model it as the ordered list of its entries (keys unique by
construction), with `Map.delete` acting as removal of the keyed entry. -/

/-- The connection table. -/
abbrev ConnTable := List (String × Conn)

/-- `WS_CONFIG.PING_TIMEOUT` (30000 ms). -/
def WS_PING_TIMEOUT : Nat := 30000

/-- `ConnectionManager.removeConnection`: look the id up; when present,
terminate the socket and delete the entry.  Returns the new table and
whether a terminate was issued. -/
def removeConnection (table : ConnTable) (connectionId : String) : ConnTable × Bool :=
  if table.any (fun p => p.1 = connectionId) then
    (table.filter (fun p => p.1 ≠ connectionId), true)
  else
    (table, false)

/-- `ConnectionManager.pingConnections`: one tick over every entry.  For a
connection awaiting its ack past the timeout, remove it; for one not
awaiting an ack, send a transport ping (which may fail, modelled by the
`pingFails` oracle — failure removes the connection) and mark it as
awaiting.  Returns the new table, the removed ids and the pinged ids. -/
def pingConnections (pingFails : String → Bool) (now : Nat) :
    ConnTable → ConnTable × List String × List String
  | [] => ([], [], [])
  | (connectionId, c) :: rest =>
    let r := pingConnections pingFails now rest
    if c.pendingPong && decide (WS_PING_TIMEOUT < now - c.lastPing) then
      (r.1, connectionId :: r.2.1, r.2.2)
    else if !c.pendingPong then
      if pingFails connectionId then
        (r.1, connectionId :: r.2.1, r.2.2)
      else
        ((connectionId, { c with pendingPong := true }) :: r.1, r.2.1, connectionId :: r.2.2)
    else
      ((connectionId, c) :: r.1, r.2.1, r.2.2)

/-- Per-entry outcome of one heartbeat tick, used to characterize
`pingConnections`: `none` when the entry is removed (ack overdue, or the
probe send failed), otherwise the surviving entry (marked as awaiting an
ack when a probe was sent — with `lastPing` untouched). -/
def pingStep (pingFails : String → Bool) (now : Nat) (e : String × Conn) :
    Option (String × Conn) :=
  if e.2.pendingPong && decide (WS_PING_TIMEOUT < now - e.2.lastPing) then none
  else if !e.2.pendingPong then
    if pingFails e.1 then none else some (e.1, { e.2 with pendingPong := true })
  else some e

/-! ## SSE stream reassembly (deepseek-client.ts)

`createChatCompletionStream` accumulates chunk text in a carryover buffer;
`processSSEChunk` splits the buffer at double line breaks, emits every
complete segment that carries the "data: " marker (parsing its payload,
skipping the terminal "[DONE]" marker), and returns the trailing partial
segment as the new buffer; stream end flushes a non-blank remainder.
Text is modelled at character level (chunk slicings are assumed to
preserve the character text, as the claim requires). -/

/-- Greedy left-to-right split at double line breaks, exactly as
JavaScript `buffer.split("\n\n")` behaves. -/
def splitNN : List Char → List (List Char)
  | [] => [[]]
  | '\n' :: '\n' :: rest => [] :: splitNN rest
  | c :: rest =>
    match splitNN rest with
    | [] => [[c]]
    | s :: ss => (c :: s) :: ss

/-- Inverse of `splitNN`: rejoin segments with the double line break. -/
def joinNN : List (List Char) → List Char
  | [] => []
  | [s] => s
  | s :: rest => s ++ '\n' :: '\n' :: joinNN rest

/-- The fragment marker `"data: "`. -/
def dataMarker : List Char := "data: ".data

/-- The terminal fragment `"[DONE]"`. -/
def doneMarker : List Char := "[DONE]".data

/-- Payload a complete segment contributes, if any: trim, require the
"data: " marker, strip it, and drop the terminal "[DONE]" marker.
(A payload that later fails `JSON.parse` is dropped by the emitter loop;
parsing is a per-payload function, so every property proved about the
payload sequence transfers to the parsed sequence.) -/
def segPayload (seg : List Char) : Option (List Char) :=
  let line := trimChars seg
  if dataMarker.isPrefixOf line then
    let payload := line.drop 6
    if payload = doneMarker then none else some payload
  else none

/-- Payloads contributed by a list of complete segments, in order. -/
def segPayloads (segs : List (List Char)) : List (List Char) :=
  segs.filterMap segPayload

/-- One `data` event: append the chunk, split, emit the payloads of all
complete segments, keep the trailing partial segment as the new buffer. -/
def feedChunk (st : List (List Char) × List Char) (chunk : List Char) :
    List (List Char) × List Char :=
  let parts := splitNN (st.2 ++ chunk)
  (st.1 ++ segPayloads parts.dropLast, parts.getLastD [])

/-- Whole stream run: fold the chunks through the carryover buffer, then
flush the remainder at end of stream when its trimmed text is non-empty
(`buffer.trim().length > 0`), processing every segment of it. -/
def runStream (chunks : List (List Char)) : List (List Char) :=
  let st := chunks.foldl feedChunk ([], [])
  if trimChars st.2 ≠ [] then st.1 ++ segPayloads (splitNN st.2) else st.1

/-! ## Envelope discriminators and concrete fixtures -/

/-- Is this envelope a `tool_result`? -/
def isToolResultMsg : OutMsg → Bool
  | .toolResult _ _ _ => true
  | _ => false

/-- Is this envelope a `tool_suggestions`? -/
def isToolSuggestionsMsg : OutMsg → Bool
  | .toolSuggestionsEnvelope _ _ _ => true
  | _ => false

/-- Is this envelope a `not-authenticated` error? -/
def isNotAuthErrorMsg : OutMsg → Bool
  | .errorEnvelope _ .NOT_AUTHENTICATED _ => true
  | _ => false

/-- Search parameters returned by the fixture Algolia oracle. -/
def exSearchParams : Json := .obj [("query", .str "dogs")]

/-- Search results returned by the fixture Algolia oracle. -/
def exSearchHits : Json := .obj [("hits", .arr [])]

/-- The single high-confidence suggestion of the C1 scenario. -/
def exSuggestion : Suggestion :=
  ⟨"search_posts", "Search posts with Algolia", 0.95, .obj []⟩

/-- Fixture oracles: every backend call succeeds, and suggestion analysis
returns the single `search_posts` candidate at confidence 0.95. -/
def exOracles : Oracles :=
  { mcpCall := fun _ _ => ⟨true, .obj [], none, none⟩,
    completion := ⟨true, .obj [], none, none, some [exSuggestion]⟩,
    algoliaSearch := fun _ => ⟨true, some exSearchParams, some exSearchHits, none, none⟩,
    enhanceParams := fun p _ => p }

/-- An authenticated fixture connection. -/
def exConnAuthed : Conn := ⟨"c1", true, 0, false⟩

/-- An unauthenticated fixture connection. -/
def exConnUnauthed : Conn := ⟨"c1", false, 0, false⟩

/-! ## Theorems -/

/-- C3 counterexample: the claim says every token list is matched over the
message and the detail text alike, which would classify a cause with
message "zzz" and detail "unauthorized" as AUTHENTICATION_FAILED; the code
consults the detail text only for the timeout token and returns
INTERNAL_SERVER_ERROR on this input. -/
theorem classifier_detail_text_counterexample :
    determineErrorCode "zzz" (some "unauthorized") = ErrorCode.INTERNAL_SERVER_ERROR ∧
    classifierPerClaim "zzz" (some "unauthorized") = ErrorCode.AUTHENTICATION_FAILED ∧
    determineErrorCode "zzz" (some "unauthorized") ≠
      classifierPerClaim "zzz" (some "unauthorized") := by
  refine ⟨by decide, by decide, by decide⟩

/-- C3 amended: the classifier returns the first matching kind in the fixed
precedence order (timeout, authentication, permission, not-found,
rate-limit, invalid-parameter, service-unavailable) by case-insensitive
substring matching, where the optional detail text is consulted only for
the timeout token list and every other list is matched against the
message alone; it returns internal when no rule fires. -/
theorem classifier_first_match :
    ∀ (e : String) (d : Option String), determineErrorCode e d = classifierAmended e d := by
  intro e d
  simp only [determineErrorCode, classifierAmended, sourceRules, firstRuleCode, ruleFires,
    List.any_cons, List.any_nil, Bool.or_false, Bool.or_assoc]

/-- C9 counterexample: the claimed acceptance condition disagrees with the
code in both directions.  An object with an empty-string `type` is an
object with a string kind, yet the code rejects it (empty strings are
falsy); an object with a numeric `type` has no string kind, yet the code
accepts it (any truthy value passes). -/
theorem frame_validation_counterexample :
    frameValid (Json.obj [("type", Json.str ""), ("id", Json.str "m1")]) = false ∧
    frameValidPerClaim (Json.obj [("type", Json.str ""), ("id", Json.str "m1")]) = true ∧
    frameValid (Json.obj [("type", Json.num 1), ("id", Json.str "m1")]) = true ∧
    frameValidPerClaim (Json.obj [("type", Json.num 1), ("id", Json.str "m1")]) = false := by
  refine ⟨by decide, by decide, by decide, by decide⟩

/-- C9 amended: decode succeeds exactly when the parsed value is an object
or array whose `type` and `id` members are both present and truthy (null,
false, zero and the empty string being falsy); string-typed kinds are not
required and empty strings are rejected. -/
theorem frame_validation_amended :
    ∀ v : Json, frameValid v = frameValidAmended v := by
  intro v
  cases v <;> simp [frameValid, frameValidAmended, Json.truthy, Json.typeofObject, Json.getProp]

/-- The falsy-guarded trim of the source (`k ? k.trim() : ''`) agrees with
plain trimming, because trimming the empty string gives the empty string. -/
theorem trimGuard_eq_trim (k : String) : (if k = "" then "" else jsTrim k) = jsTrim k := by
  split
  · subst ‹k = ""›; rfl
  · rfl

/-- C8: an authenticate request succeeds exactly when the trimmed
candidate key equals the trimmed configured secret; success sets the
authenticated flag and replies success true echoing the request id with
no scheduled action, failure leaves the connection state unchanged (in
particular the flag stays false), replies success false, and schedules
termination after a fixed 1000 ms delay rather than immediately. -/
theorem auth_handler_contract (secret : String) (conn : Conn) (id apiKey : String) :
    (jsTrim apiKey = jsTrim secret →
      (authHandler secret conn id apiKey).conn = { conn with isAuthenticated := true } ∧
      (authHandler secret conn id apiKey).msgs = [.authResult id true none] ∧
      (authHandler secret conn id apiKey).actions = []) ∧
    (jsTrim apiKey ≠ jsTrim secret →
      (authHandler secret conn id apiKey).conn = conn ∧
      (authHandler secret conn id apiKey).msgs = [.authResult id false (some "Invalid API key")] ∧
      (authHandler secret conn id apiKey).actions = [.scheduleTerminate 1000]) := by
  unfold authHandler validateAuthentication
  rw [trimGuard_eq_trim, trimGuard_eq_trim]
  constructor
  · intro h
    simp [h]
  · intro h
    simp [h]

/-- C8 witness: the shared-secret scenario of the spec, both on the
matching key and on a mismatched key. -/
theorem auth_handler_contract_witness :
    ((authHandler "secret" exConnUnauthed "m1" "secret").conn =
        { exConnUnauthed with isAuthenticated := true } ∧
      (authHandler "secret" exConnUnauthed "m1" "secret").msgs =
        [.authResult "m1" true none] ∧
      (authHandler "secret" exConnUnauthed "m1" "secret").actions = []) ∧
    ((authHandler "secret" exConnUnauthed "m1" "wrong").conn = exConnUnauthed ∧
      (authHandler "secret" exConnUnauthed "m1" "wrong").msgs =
        [.authResult "m1" false (some "Invalid API key")] ∧
      (authHandler "secret" exConnUnauthed "m1" "wrong").actions =
        [.scheduleTerminate 1000]) :=
  ⟨(auth_handler_contract "secret" exConnUnauthed "m1" "secret").1 (by decide),
   (auth_handler_contract "secret" exConnUnauthed "m1" "wrong").2 (by decide)⟩

/-- C2 counterexample: an unauthenticated session sending a ping receives
a pong, not a `not-authenticated` error, and the liveness bookkeeping is
updated — the ping handler has no authentication gate. -/
theorem ping_without_auth_counterexample :
    (dispatchClientMessage "secret" exOracles 777 exConnUnauthed (.ping "m1")).msgs =
      [.pong "m1" 777] ∧
    ((dispatchClientMessage "secret" exOracles 777 exConnUnauthed (.ping "m1")).msgs.any
      isNotAuthErrorMsg) = false ∧
    (dispatchClientMessage "secret" exOracles 777 exConnUnauthed (.ping "m1")).calls = [] :=
  ⟨rfl, rfl, rfl⟩

/-- C2 amended: for an unauthenticated session, every request of kind
tool_call, tool_selection, chat_completion or natural_language_search
yields exactly one `not-authenticated` error echoing the request id, with
zero backend calls and no state change; a ping, however, is answered with
a pong regardless of authentication. -/
theorem unauthenticated_requests_rejected (secret : String) (o : Oracles) (now : Nat)
    (conn : Conn) (h : conn.isAuthenticated = false) :
    (∀ id tool args, dispatchClientMessage secret o now conn (.toolCall id tool args) =
      ⟨[errorMsgOut id "Not authenticated" .NOT_AUTHENTICATED], [], conn, []⟩) ∧
    (∀ id toolName args orig,
      dispatchClientMessage secret o now conn (.toolSelection id toolName args orig) =
        ⟨[errorMsgOut id "Not authenticated" .NOT_AUTHENTICATED], [], conn, []⟩) ∧
    (∀ id messages stream,
      dispatchClientMessage secret o now conn (.chatCompletion id messages stream) =
        ⟨[errorMsgOut id "Not authenticated" .NOT_AUTHENTICATED], [], conn, []⟩) ∧
    (∀ id query options, dispatchClientMessage secret o now conn (.nlSearch id query options) =
      ⟨[errorMsgOut id "Not authenticated" .NOT_AUTHENTICATED], [], conn, []⟩) ∧
    (∀ id, dispatchClientMessage secret o now conn (.ping id) =
      ⟨[.pong id now], [], { conn with lastPing := now, pendingPong := false }, []⟩) := by
  refine ⟨fun id tool args => ?_, fun id toolName args orig => ?_,
    fun id messages stream => ?_, fun id query options => ?_, fun id => ?_⟩ <;>
    simp [dispatchClientMessage, toolCallHandler, toolSelectionHandler, chatCompletionHandler,
      nlSearchHandler, pingHandler, checkAuthentication, h]

/-- C2 witness: a concrete unauthenticated tool call is rejected with a
`not-authenticated` error and no backend call. -/
theorem unauthenticated_requests_rejected_witness :
    dispatchClientMessage "secret" exOracles 5 exConnUnauthed
        (.toolCall "m2" "search_posts" (.obj [])) =
      ⟨[errorMsgOut "m2" "Not authenticated" .NOT_AUTHENTICATED], [], exConnUnauthed, []⟩ :=
  (unauthenticated_requests_rejected "secret" exOracles 5 exConnUnauthed rfl).1
    "m2" "search_posts" (.obj [])

/-- C5: a streaming failure whose message matches no classifier token is
sent with code INTERNAL_SERVER_ERROR, not the TIMEOUT default the claim
(and the call-site comment) announce: the ErrorCode.TIMEOUT argument the
listener passes has no corresponding parameter in `determineErrorCode`. -/
theorem streaming_default_not_timeout :
    streamingErrorEnvelope "m1" "stream aborted" none =
      .errorEnvelope (.given "m1") .INTERNAL_SERVER_ERROR "stream aborted" ∧
    ErrorCode.INTERNAL_SERVER_ERROR ≠ ErrorCode.TIMEOUT :=
  ⟨rfl, by decide⟩

/-- C6 counterexample: a frame failing validation is answered with code
INVALID_PARAMS (the classifier sniffs the word "invalid" in the thrown
message), not INVALID_FORMAT; a well-formed frame of unknown kind "bogus"
is answered under a freshly synthesized correlation id (not the frame id
"m9") with code INTERNAL_ERROR, not INVALID_FORMAT. -/
theorem route_message_counterexample :
    (routeMessage (fun _ _ => []) (.parsed (.str "hi"))).sent =
      [.errorEnvelope .fresh .INVALID_PARAMETERS "Invalid message format"] ∧
    ErrorCode.INVALID_PARAMETERS ≠ ErrorCode.INVALID_MESSAGE_FORMAT ∧
    (routeMessage (fun _ _ => [])
        (.parsed (.obj [("type", .str "bogus"), ("id", .str "m9")]))).sent =
      [.errorEnvelope .fresh .INTERNAL_SERVER_ERROR "Unknown message type: bogus"] ∧
    Corr.fresh ≠ Corr.given "m9" ∧
    ErrorCode.INTERNAL_SERVER_ERROR ≠ ErrorCode.INVALID_MESSAGE_FORMAT :=
  ⟨rfl, by decide, rfl, by decide, by decide⟩

/-- C6 amended: a frame that fails to decode is answered with a single
error envelope under a freshly synthesized correlation id — carrying the
text-classified code of the failure message, INVALID_PARAMS for the
validation failure "Invalid message format" — and the session is not
removed; a decoded frame of unknown kind is likewise answered under a
synthesized id (not the original) with the text-classified code of
"Unknown message type: kind"; in no case does the router remove the
session. -/
theorem route_message_amended (dispatch : String → Json → List OutMsg) :
    (∀ m, routeMessage dispatch (.parseFail m) =
      ⟨[.errorEnvelope .fresh (determineErrorCode m none)
          (jsOrStr (some m) "Internal server error")], false⟩) ∧
    (∀ v, frameValid v = false → routeMessage dispatch (.parsed v) =
      ⟨[.errorEnvelope .fresh .INVALID_PARAMETERS "Invalid message format"], false⟩) ∧
    (∀ v s, frameValid v = true → (v.getProp "type").getD .null = .str s →
      knownKinds.contains s = false →
      routeMessage dispatch (.parsed v) =
        ⟨[.errorEnvelope .fresh (determineErrorCode ("Unknown message type: " ++ s) none)
            (jsOrStr (some ("Unknown message type: " ++ s)) "Internal server error")], false⟩) ∧
    (∀ f, (routeMessage dispatch f).sessionRemoved = false) := by
  refine ⟨fun m => rfl, fun v h => ?_, fun v s h1 h2 h3 => ?_, fun f => ?_⟩
  · simp [routeMessage, h]
    rfl
  · have h3' : s ∉ knownKinds := by simpa using h3
    simp [routeMessage, h1, h2, h3', processingErrorEnvelope]
  · cases f with
    | parseFail m => rfl
    | parsed v =>
      simp only [routeMessage]
      split
      · split
        · split
          · rfl
          · rfl
        · rfl
      · rfl

/-- C6 amended witness: a concrete malformed frame and a concrete
unknown-kind frame. -/
theorem route_message_amended_witness :
    routeMessage (fun _ _ => []) (.parsed (.bool true)) =
      ⟨[.errorEnvelope .fresh .INVALID_PARAMETERS "Invalid message format"], false⟩ ∧
    routeMessage (fun _ _ => [])
        (.parsed (.obj [("type", .str "mystery"), ("id", .str "m4")])) =
      ⟨[.errorEnvelope .fresh
          (determineErrorCode ("Unknown message type: " ++ "mystery") none)
          (jsOrStr (some ("Unknown message type: " ++ "mystery")) "Internal server error")],
        false⟩ :=
  ⟨(route_message_amended (fun _ _ => [])).2.1 (.bool true) rfl,
   (route_message_amended (fun _ _ => [])).2.2.1
     (.obj [("type", .str "mystery"), ("id", .str "m4")]) "mystery" rfl rfl rfl⟩

/-- C10: removing a connection is total and idempotent over the table:
an absent id leaves the table unchanged, after removal the id is no longer
present, and removing twice equals removing once. -/
theorem remove_connection_idempotent (table : ConnTable) (connectionId : String) :
    (table.all (fun p => p.1 ≠ connectionId) → (removeConnection table connectionId).1 = table) ∧
    ((removeConnection table connectionId).1.all (fun p => p.1 ≠ connectionId)) = true ∧
    (removeConnection (removeConnection table connectionId).1 connectionId).1 =
      (removeConnection table connectionId).1 := by
  have closed_form : ∀ t : ConnTable,
      (removeConnection t connectionId).1 = t.filter (fun p => p.1 ≠ connectionId) := by
    intro t
    unfold removeConnection
    split
    · rfl
    · next h =>
      have hmem : ∀ p ∈ t, p.1 ≠ connectionId := by
        intro p hp hpe
        exact h (List.any_eq_true.mpr ⟨p, hp, by simpa using hpe⟩)
      exact (List.filter_eq_self.mpr (by intro p hp; simpa using hmem p hp)).symm
  refine ⟨fun habs => ?_, ?_, ?_⟩
  · rw [closed_form]
    exact List.filter_eq_self.mpr (by simpa [List.all_eq_true] using habs)
  · rw [closed_form]
    simp [List.all_eq_true, List.mem_filter]
  · rw [closed_form, closed_form]
    exact List.filter_eq_self.mpr (by intro p hp; simp only [List.mem_filter] at hp; exact hp.2)

/-- Head of a list, when some. -/
theorem mem_of_head?_eq_some {α : Type} {l : List α} {a : α} (h : l.head? = some a) :
    a ∈ l := by
  cases l with
  | nil => cases h
  | cons b t =>
    simp only [List.head?_cons, Option.some.injEq] at h
    exact List.mem_cons.mpr (Or.inl h.symm)

/-- The auto-execution pick lands in the filtered list. -/
theorem highConfidencePick_mem {sugs : List Suggestion} {top : Suggestion}
    (h : highConfidencePick sugs = some top) :
    top ∈ sugs ∧ (0.9 : Rat) ≤ top.confidence := by
  unfold highConfidencePick at h
  have hmem := mem_of_head?_eq_some h
  have hfil := (List.perm_insertionSort confGe
    (sugs.filter (fun t => decide ((0.9 : Rat) ≤ t.confidence)))).mem_iff.mp hmem
  have := List.mem_filter.mp hfil
  exact ⟨this.1, of_decide_eq_true this.2⟩

/-- The auto-execution pick has maximal confidence among candidates at or
above the threshold. -/
theorem highConfidencePick_max {sugs : List Suggestion} {top : Suggestion}
    (h : highConfidencePick sugs = some top) :
    ∀ s ∈ sugs, (0.9 : Rat) ≤ s.confidence → s.confidence ≤ top.confidence := by
  intro s hs hconf
  unfold highConfidencePick at h
  have hsfil : s ∈ sugs.filter (fun t => decide ((0.9 : Rat) ≤ t.confidence)) :=
    List.mem_filter.mpr ⟨hs, decide_eq_true hconf⟩
  have hsms : s ∈ (sugs.filter
      (fun t => decide ((0.9 : Rat) ≤ t.confidence))).insertionSort confGe :=
    (List.perm_insertionSort confGe _).symm.mem_iff.mp hsfil
  have hsorted := List.sorted_insertionSort confGe
    (sugs.filter (fun t => decide ((0.9 : Rat) ≤ t.confidence)))
  cases hm : (sugs.filter
      (fun t => decide ((0.9 : Rat) ≤ t.confidence))).insertionSort confGe with
  | nil => rw [hm] at hsms; exact absurd hsms (by simp)
  | cons a l =>
    rw [hm] at h hsms hsorted
    simp only [List.head?_cons, Option.some.injEq] at h
    subst h
    rcases List.mem_cons.mp hsms with rfl | htl
    · exact le_refl _
    · exact (List.sorted_cons.mp hsorted).1 s htl

/-- When some suggestion reaches the threshold, a pick exists. -/
theorem highConfidencePick_isSome {sugs : List Suggestion}
    (h : ∃ s ∈ sugs, (0.9 : Rat) ≤ s.confidence) :
    ∃ top, highConfidencePick sugs = some top := by
  obtain ⟨s, hs, hconf⟩ := h
  have hsfil : s ∈ sugs.filter (fun t => decide ((0.9 : Rat) ≤ t.confidence)) :=
    List.mem_filter.mpr ⟨hs, decide_eq_true hconf⟩
  have hsms : s ∈ (sugs.filter
      (fun t => decide ((0.9 : Rat) ≤ t.confidence))).insertionSort confGe :=
    (List.perm_insertionSort confGe _).symm.mem_iff.mp hsfil
  cases hm : (sugs.filter
      (fun t => decide ((0.9 : Rat) ≤ t.confidence))).insertionSort confGe with
  | nil => rw [hm] at hsms; exact absurd hsms (by simp)
  | cons a l => exact ⟨a, by simp [highConfidencePick, hm]⟩

/-- The fixture pick: the single 0.95 search_posts candidate is selected. -/
theorem highConfidencePick_exSuggestion :
    highConfidencePick [exSuggestion] = some exSuggestion := by
  have hc : decide ((0.9 : Rat) ≤ exSuggestion.confidence) = true :=
    decide_eq_true (by norm_num [exSuggestion])
  simp [highConfidencePick, List.filter, hc, List.insertionSort]

/-- C1 counterexample: the spec scenario.  An authenticated
chat_completion whose suggestion analysis returns the single candidate
search_posts at confidence 0.95 is answered with a
natural_language_search_result envelope (after the status envelope), and
no tool_result envelope is ever sent (nor any tool_suggestions). -/
theorem auto_search_posts_counterexample :
    (chatCompletionHandler exOracles exConnAuthed "m3"
        [⟨"user", "find posts about dogs"⟩] false).msgs =
      [.statusMsg "m3" "Processing chat completion",
       .nlSearchResult "m3" true exSearchParams (some exSearchHits)] ∧
    ((chatCompletionHandler exOracles exConnAuthed "m3"
        [⟨"user", "find posts about dogs"⟩] false).msgs.any isToolResultMsg) = false ∧
    ((chatCompletionHandler exOracles exConnAuthed "m3"
        [⟨"user", "find posts about dogs"⟩] false).msgs.any isToolSuggestionsMsg) = false := by
  have ht : exSuggestion.tool = "search_posts" := rfl
  refine ⟨?_, ?_, ?_⟩ <;>
    simp [chatCompletionHandler, checkAuthentication, exConnAuthed,
      handleNonStreamingChatCompletion, exOracles, handleToolSuggestions,
      highConfidencePick_exSuggestion, handleAutoSearchPosts, lastContent, ht,
      isToolResultMsg, isToolSuggestionsMsg]

/-- C1 amended: whenever some suggestion reaches confidence 0.9 the
handler never forwards the suggestion list; it auto-executes the
highest-confidence such candidate, replying with a tool_result envelope
echoing the request id when the selected tool is not search_posts (and
the tool call succeeds), and with a natural_language_search_result
envelope when the selected tool is search_posts (and the search
succeeds). -/
theorem high_confidence_auto_execution (o : Oracles) (mid : String)
    (sugs : List Suggestion) (messages : List ChatMsg)
    (h : ∃ s ∈ sugs, (0.9 : Rat) ≤ s.confidence) :
    ((handleToolSuggestions o mid sugs messages).1.any isToolSuggestionsMsg) = false ∧
    ∃ top, highConfidencePick sugs = some top ∧
      top ∈ sugs ∧ (0.9 : Rat) ≤ top.confidence ∧
      (∀ s ∈ sugs, (0.9 : Rat) ≤ s.confidence → s.confidence ≤ top.confidence) ∧
      (top.tool ≠ "search_posts" → (o.mcpCall top.tool top.suggestedArgs).success = true →
        (handleToolSuggestions o mid sugs messages).1 =
          [.toolResult mid top.tool (o.mcpCall top.tool top.suggestedArgs).data]) ∧
      (top.tool = "search_posts" → (o.algoliaSearch (lastContent messages)).success = true →
        (handleToolSuggestions o mid sugs messages).1 =
          [.nlSearchResult mid true
            ((o.algoliaSearch (lastContent messages)).searchParams.getD (.obj []))
            (some ((o.algoliaSearch (lastContent messages)).searchResults.getD (.obj [])))]) := by
  obtain ⟨top, hpick⟩ := highConfidencePick_isSome h
  obtain ⟨htopmem, htopconf⟩ := highConfidencePick_mem hpick
  refine ⟨?_, top, hpick, htopmem, htopconf, highConfidencePick_max hpick, ?_, ?_⟩
  · simp only [handleToolSuggestions, hpick]
    split
    · simp only [handleAutoSearchPosts]
      split <;> rfl
    · simp only [handleAutoExecuteTool]
      split <;> rfl
  · intro hne hsucc
    simp only [handleToolSuggestions, hpick, if_neg hne]
    simp only [handleAutoExecuteTool]
    simp [hsucc]
  · intro heq hsucc
    simp only [handleToolSuggestions, hpick, if_pos heq]
    simp only [handleAutoSearchPosts]
    simp [hsucc]

/-- C1 amended witness: the spec scenario applied to the amended theorem. -/
theorem high_confidence_auto_execution_witness :
    ((handleToolSuggestions exOracles "m3" [exSuggestion]
        [⟨"user", "find posts about dogs"⟩]).1.any isToolSuggestionsMsg) = false :=
  (high_confidence_auto_execution exOracles "m3" [exSuggestion]
    [⟨"user", "find posts about dogs"⟩]
    ⟨exSuggestion, List.mem_singleton.mpr rfl, by norm_num [exSuggestion]⟩).1

/-- A surviving heartbeat entry keeps its key. -/
theorem pingStep_key {f : String → Bool} {now : Nat} {e e' : String × Conn}
    (h : pingStep f now e = some e') : e'.1 = e.1 := by
  unfold pingStep at h
  split at h
  · cases h
  · split at h
    · split at h
      · cases h
      · cases h; rfl
    · cases h; rfl

/-- Keys are unique in a table with nodup keys. -/
theorem key_unique {t : ConnTable} (h : (t.map Prod.fst).Nodup) {k : String} {a b : Conn}
    (ha : (k, a) ∈ t) (hb : (k, b) ∈ t) : a = b := by
  induction t with
  | nil => cases ha
  | cons e rest ih =>
    obtain ⟨e1, e2⟩ := e
    simp only [List.map_cons, List.nodup_cons] at h
    rcases List.mem_cons.mp ha with ha1 | ha1 <;> rcases List.mem_cons.mp hb with hb1 | hb1
    · rw [Prod.mk.injEq] at ha1 hb1
      rw [ha1.2, hb1.2]
    · exfalso
      rw [Prod.mk.injEq] at ha1
      exact h.1 (ha1.1 ▸ List.mem_map.mpr ⟨(k, b), hb1, rfl⟩)
    · exfalso
      rw [Prod.mk.injEq] at hb1
      exact h.1 (hb1.1 ▸ List.mem_map.mpr ⟨(k, a), ha1, rfl⟩)
    · exact ih h.2 ha1 hb1

/-- The surviving table of a tick is the per-entry step mapped over the
old table. -/
theorem pingConnections_table (f : String → Bool) (now : Nat) :
    ∀ t : ConnTable, (pingConnections f now t).1 = t.filterMap (pingStep f now) := by
  intro t
  induction t with
  | nil => rfl
  | cons e rest ih =>
    obtain ⟨cid, c⟩ := e
    by_cases hp : c.pendingPong = true
    · by_cases hlt : WS_PING_TIMEOUT < now - c.lastPing
      · have h1 : (c.pendingPong && decide (WS_PING_TIMEOUT < now - c.lastPing)) = true := by
          simp [hp, hlt]
        simp [pingConnections, pingStep, h1, hp, hlt, ih]
      · have h1 : (c.pendingPong && decide (WS_PING_TIMEOUT < now - c.lastPing)) = false := by
          simp [hlt]
        simp [pingConnections, pingStep, h1, hp, hlt, ih]
    · have hp2 : c.pendingPong = false := by simpa using hp
      have h1 : (c.pendingPong && decide (WS_PING_TIMEOUT < now - c.lastPing)) = false := by
        simp [hp2]
      by_cases hf : f cid = true
      · simp [pingConnections, pingStep, h1, hp2, hf, ih]
      · have hf2 : f cid = false := by simpa using hf
        simp [pingConnections, pingStep, h1, hp2, hf2, ih]

/-- The removed ids of a tick are the keys of the entries whose step is
`none`. -/
theorem pingConnections_removedList (f : String → Bool) (now : Nat) :
    ∀ t : ConnTable, (pingConnections f now t).2.1 =
      (t.filter (fun e => (pingStep f now e).isNone)).map Prod.fst := by
  intro t
  induction t with
  | nil => rfl
  | cons e rest ih =>
    obtain ⟨cid, c⟩ := e
    by_cases hp : c.pendingPong = true
    · by_cases hlt : WS_PING_TIMEOUT < now - c.lastPing
      · have h1 : (c.pendingPong && decide (WS_PING_TIMEOUT < now - c.lastPing)) = true := by
          simp [hp, hlt]
        simp [pingConnections, pingStep, h1, hp, hlt, ih]
      · have h1 : (c.pendingPong && decide (WS_PING_TIMEOUT < now - c.lastPing)) = false := by
          simp [hlt]
        simp [pingConnections, pingStep, h1, hp, hlt, ih]
    · have hp2 : c.pendingPong = false := by simpa using hp
      have h1 : (c.pendingPong && decide (WS_PING_TIMEOUT < now - c.lastPing)) = false := by
        simp [hp2]
      by_cases hf : f cid = true
      · simp [pingConnections, pingStep, h1, hp2, hf, ih]
      · have hf2 : f cid = false := by simpa using hf
        simp [pingConnections, pingStep, h1, hp2, hf2, ih]

/-- The pinged ids of a tick are the keys of the entries that were not
awaiting an ack and whose probe send succeeded. -/
theorem pingConnections_pingedList (f : String → Bool) (now : Nat) :
    ∀ t : ConnTable, (pingConnections f now t).2.2 =
      (t.filter (fun e => !e.2.pendingPong && !f e.1)).map Prod.fst := by
  intro t
  induction t with
  | nil => rfl
  | cons e rest ih =>
    obtain ⟨cid, c⟩ := e
    by_cases hp : c.pendingPong = true
    · by_cases hlt : WS_PING_TIMEOUT < now - c.lastPing
      · have h1 : (c.pendingPong && decide (WS_PING_TIMEOUT < now - c.lastPing)) = true := by
          simp [hp, hlt]
        simp [pingConnections, h1, hp, hlt, ih]
      · have h1 : (c.pendingPong && decide (WS_PING_TIMEOUT < now - c.lastPing)) = false := by
          simp [hlt]
        simp [pingConnections, h1, hp, hlt, ih]
    · have hp2 : c.pendingPong = false := by simpa using hp
      have h1 : (c.pendingPong && decide (WS_PING_TIMEOUT < now - c.lastPing)) = false := by
        simp [hp2]
      by_cases hf : f cid = true
      · simp [pingConnections, h1, hp2, hf, ih]
      · have hf2 : f cid = false := by simpa using hf
        simp [pingConnections, h1, hp2, hf2, ih]

/-- C7 counterexample: a tick over a session not awaiting an ack sends the
probe and sets the awaiting flag, but leaves `lastPing` at its old value
(0) rather than the current time (5000) — the claim says
lastHeartbeatSentAt becomes the current time. -/
theorem heartbeat_probe_lastPing_counterexample :
    (pingConnections (fun _ => false) 5000 [("c1", exConnUnauthed)]).1 =
      [("c1", { exConnUnauthed with pendingPong := true })] ∧
    ({ exConnUnauthed with pendingPong := true }).lastPing = 0 ∧
    (0 : Nat) ≠ 5000 :=
  ⟨rfl, rfl, by decide⟩

/-- C7 amended: on a tick, a session awaiting its ack past the 30 s
timeout is removed from the table (and its transport closed); a session
not awaiting an ack whose probe send succeeds stays with `awaitingAck`
set — but its `lastHeartbeatSentAt` (`lastPing`) is left unchanged, not
set to the current time. -/
theorem heartbeat_tick_amended (f : String → Bool) (now : Nat) (t : ConnTable)
    (cid : String) (c : Conn)
    (hnodup : (t.map Prod.fst).Nodup) (hmem : (cid, c) ∈ t) :
    (c.pendingPong = true → WS_PING_TIMEOUT < now - c.lastPing →
      cid ∈ (pingConnections f now t).2.1 ∧
      ∀ c₂ : Conn, (cid, c₂) ∉ (pingConnections f now t).1) ∧
    (c.pendingPong = false → f cid = false →
      (cid, { c with pendingPong := true }) ∈ (pingConnections f now t).1 ∧
      (∀ c₂ : Conn, (cid, c₂) ∈ (pingConnections f now t).1 → c₂.lastPing = c.lastPing) ∧
      cid ∈ (pingConnections f now t).2.2) := by
  constructor
  · intro hp ht
    have hstep : pingStep f now (cid, c) = none := by
      simp [pingStep, hp, ht]
    constructor
    · rw [pingConnections_removedList]
      exact List.mem_map.mpr ⟨(cid, c), List.mem_filter.mpr ⟨hmem, by simp [hstep]⟩, rfl⟩
    · intro c₂ hc₂
      rw [pingConnections_table] at hc₂
      obtain ⟨⟨e1, e2⟩, he, hse⟩ := List.mem_filterMap.mp hc₂
      have he1 : e1 = cid := by
        have := pingStep_key hse
        simpa using this.symm
      subst he1
      have he2 : e2 = c := key_unique hnodup he hmem
      subst he2
      rw [hstep] at hse
      cases hse
  · intro hp hf
    have hstep : pingStep f now (cid, c) = some (cid, { c with pendingPong := true }) := by
      simp [pingStep, hp, hf]
    refine ⟨?_, ?_, ?_⟩
    · rw [pingConnections_table]
      exact List.mem_filterMap.mpr ⟨(cid, c), hmem, hstep⟩
    · intro c₂ hc₂
      rw [pingConnections_table] at hc₂
      obtain ⟨⟨e1, e2⟩, he, hse⟩ := List.mem_filterMap.mp hc₂
      have he1 : e1 = cid := by
        have := pingStep_key hse
        simpa using this.symm
      subst he1
      have he2 : e2 = c := key_unique hnodup he hmem
      subst he2
      rw [hstep] at hse
      cases hse
      rfl
    · rw [pingConnections_pingedList]
      exact List.mem_map.mpr ⟨(cid, c), List.mem_filter.mpr ⟨hmem, by simp [hp, hf]⟩, rfl⟩

/-- C7 amended witness: a concrete singleton table, probing branch. -/
theorem heartbeat_tick_amended_witness :
    ((("c1" : String), ({ exConnUnauthed with pendingPong := true } : Conn)) ∈
      (pingConnections (fun _ => false) 5000 [("c1", exConnUnauthed)]).1) ∧
    "c1" ∈ (pingConnections (fun _ => false) 5000 [("c1", exConnUnauthed)]).2.2 :=
  ⟨((heartbeat_tick_amended (fun _ => false) 5000 [("c1", exConnUnauthed)] "c1" exConnUnauthed
      (by decide) (List.mem_singleton.mpr rfl)).2 rfl rfl).1,
   ((heartbeat_tick_amended (fun _ => false) 5000 [("c1", exConnUnauthed)] "c1" exConnUnauthed
      (by decide) (List.mem_singleton.mpr rfl)).2 rfl rfl).2.2⟩

theorem splitNN_ne_nil : ∀ l, splitNN l ≠ [] := by
  intro l
  induction l using splitNN.induct with
  | case1 => simp [splitNN]
  | case2 rest ih => simp [splitNN]
  | case3 c rest h hnil ih => exact absurd hnil ih
  | case4 c rest h s ss hsr ih => simp [splitNN, h, hsr]

theorem joinNN_splitNN : ∀ l, joinNN (splitNN l) = l := by
  intro l
  induction l using splitNN.induct with
  | case1 => rfl
  | case2 rest ih =>
    cases hsr : splitNN rest with
    | nil => exact absurd hsr (splitNN_ne_nil rest)
    | cons s ss =>
      rw [hsr] at ih
      simp [splitNN, hsr, joinNN, ih]
  | case3 c rest h hnil ih => exact absurd hnil (splitNN_ne_nil rest)
  | case4 c rest h s ss hsr ih =>
    rw [hsr] at ih
    cases ss with
    | nil =>
      simp only [joinNN] at ih
      simp [splitNN, h, hsr, joinNN, ih]
    | cons s2 ss2 =>
      simp only [joinNN] at ih
      have hsp : splitNN (c :: rest) = (c :: s) :: s2 :: ss2 := by simp [splitNN, h, hsr]
      rw [hsp]
      simp only [joinNN, List.cons_append, ih]

theorem splitNN_head_char : ∀ x s ss, splitNN x = s :: ss → s = [] ∨ s.head? = x.head? := by
  intro x
  induction x using splitNN.induct with
  | case1 =>
    intro s ss h
    simp only [splitNN] at h
    cases h
    exact Or.inl rfl
  | case2 rest ih =>
    intro s ss h
    simp only [splitNN] at h
    cases h
    exact Or.inl rfl
  | case3 c rest h hnil ih => exact absurd hnil (splitNN_ne_nil rest)
  | case4 c rest h s0 ss0 hsr ih =>
    intro s ss hx
    rw [show splitNN (c :: rest) = (c :: s0) :: ss0 by simp [splitNN, h, hsr]] at hx
    injection hx with h1 h2
    subst h1
    exact Or.inr rfl

theorem splitNN_cons_single {c : Char} {s : List Char} (hs : splitNN s = [s])
    (hg : ∀ s1, c = '\n' → s = '\n' :: s1 → False) : splitNN (c :: s) = [c :: s] := by
  cases s with
  | nil => simp [splitNN]
  | cons d s2 =>
    have hg2 : ∀ r1, c = '\n' → d :: s2 = '\n' :: r1 → False := by
      intro r1 hc hd
      injection hd with hd1 hd2
      exact hg s2 hc (by rw [hd1])
    simp [splitNN, hs, hg2]

theorem splitNN_seg : ∀ x, ∀ s ∈ splitNN x, splitNN s = [s] := by
  intro x
  induction x using splitNN.induct with
  | case1 =>
    intro s hs
    simp [splitNN] at hs
    subst hs
    rfl
  | case2 rest ih =>
    intro s hs
    rw [show splitNN ('\n' :: '\n' :: rest) = [] :: splitNN rest from by simp [splitNN]] at hs
    rcases List.mem_cons.mp hs with rfl | hs2
    · rfl
    · exact ih s hs2
  | case3 c rest h hnil ih => exact absurd hnil (splitNN_ne_nil rest)
  | case4 c rest h s0 ss0 hsr ih =>
    intro s hs
    rw [show splitNN (c :: rest) = (c :: s0) :: ss0 from by simp [splitNN, h, hsr]] at hs
    rcases List.mem_cons.mp hs with rfl | hs2
    · have hs0 : splitNN s0 = [s0] := ih s0 (by rw [hsr]; exact List.mem_cons_self _ _)
      apply splitNN_cons_single hs0
      intro s1 hc hrest
      rcases splitNN_head_char rest s0 ss0 hsr with h0 | h0
      · rw [h0] at hrest; cases hrest
      · rw [hrest] at h0
        cases hr : rest with
        | nil => rw [hr] at h0; cases h0
        | cons r rest2 =>
          rw [hr] at h0
          simp only [List.head?_cons, Option.some.injEq] at h0
          exact h rest2 hc (by rw [hr, ← h0])
    · exact ih s (by rw [hsr]; exact List.mem_cons.mpr (Or.inr hs2))

theorem splitNN_append : ∀ a b, splitNN (a ++ b) =
    (splitNN a).dropLast ++ splitNN ((splitNN a).getLastD [] ++ b) := by
  intro a
  induction a using splitNN.induct with
  | case1 => intro b; simp [splitNN]
  | case2 rest ih =>
    intro b
    have h2 : splitNN ('\n' :: '\n' :: rest) = [] :: splitNN rest := by simp [splitNN]
    cases hsr : splitNN rest with
    | nil => exact absurd hsr (splitNN_ne_nil rest)
    | cons s ss =>
      have hL : splitNN (('\n' :: '\n' :: rest) ++ b) = [] :: splitNN (rest ++ b) := by
        simp [splitNN]
      rw [hL, h2, hsr, ih b, hsr]
      simp [List.getLastD]
  | case3 c rest h hnil ih => exact absurd hnil (splitNN_ne_nil rest)
  | case4 c rest h s0 ss0 hsr ih =>
    intro b
    have hsp : splitNN (c :: rest) = (c :: s0) :: ss0 := by simp [splitNN, h, hsr]
    cases ss0 with
    | nil =>
      have hs0 : s0 = rest := by
        have hj := joinNN_splitNN rest
        rw [hsr] at hj
        simpa [joinNN] using hj
      subst hs0
      rw [hsp]
      simp [List.getLastD]
    | cons s2 ss2 =>
      have hrne : rest ≠ [] := by
        intro hr
        rw [hr] at hsr
        simp [splitNN] at hsr
      have hg2 : ∀ r1, c = '\n' → rest ++ b = '\n' :: r1 → False := by
        intro r1 hc happ
        cases hr : rest with
        | nil => exact hrne hr
        | cons r rest2 =>
          rw [hr] at happ
          simp only [List.cons_append] at happ
          injection happ with h1 h2
          exact h rest2 hc (by rw [hr, h1])
      have hihb := ih b
      rw [hsr] at hihb
      have hihb2 : splitNN (rest ++ b) =
          s0 :: ((s2 :: ss2).dropLast ++ splitNN ((s2 :: ss2).getLastD [] ++ b)) := by
        rw [hihb]
        simp [List.getLastD]
      have hL : splitNN (c :: (rest ++ b)) =
          (c :: s0) :: ((s2 :: ss2).dropLast ++ splitNN ((s2 :: ss2).getLastD [] ++ b)) := by
        simp [splitNN, hg2, hihb2]
      rw [List.cons_append, hL, hsp]
      simp [List.getLastD]

theorem getLastD_mem {α : Type} : ∀ {l : List α}, l ≠ [] → ∀ d : α, l.getLastD d ∈ l := by
  intro l
  induction l with
  | nil => intro h; exact absurd rfl h
  | cons a t ih =>
    intro _ d
    rw [List.getLastD_cons]
    cases ht : t with
    | nil => simp [List.getLastD]
    | cons b t2 =>
      rw [← ht]
      exact List.mem_cons.mpr (Or.inr (ih (by rw [ht]; simp) a))

theorem dropLast_append_getLastD {α : Type} {l : List α} (h : l ≠ []) (d : α) :
    l.dropLast ++ [l.getLastD d] = l := by
  have hgd : l.getLastD d = l.getLast h := by
    rw [List.getLastD_eq_getLast?, List.getLast?_eq_getLast l h]
    rfl
  rw [hgd]
  exact List.dropLast_append_getLast h

theorem getLastD_append_ne_nil {α : Type} {x y : List α} (h : y ≠ []) (d : α) :
    (x ++ y).getLastD d = y.getLastD d := by
  rw [List.getLastD_eq_getLast?, List.getLastD_eq_getLast?, List.getLast?_append]
  cases hy : y.getLast? with
  | none => exact absurd (List.getLast?_eq_none_iff.mp hy) h
  | some a => rfl

theorem feed_fold : ∀ (chunks : List (List Char)) (acc : List (List Char)) (buf : List Char),
    splitNN buf = [buf] →
    chunks.foldl feedChunk (acc, buf) =
      (acc ++ segPayloads (splitNN (buf ++ chunks.flatten)).dropLast,
       (splitNN (buf ++ chunks.flatten)).getLastD []) := by
  intro chunks
  induction chunks with
  | nil =>
    intro acc buf hbuf
    simp [List.foldl, hbuf, segPayloads]
  | cons ch chunks ih =>
    intro acc buf hbuf
    have hne := splitNN_ne_nil (buf ++ ch)
    have hbuf2 : splitNN ((splitNN (buf ++ ch)).getLastD []) =
        [(splitNN (buf ++ ch)).getLastD []] :=
      splitNN_seg (buf ++ ch) _ (getLastD_mem hne [])
    have hne2 := splitNN_ne_nil ((splitNN (buf ++ ch)).getLastD [] ++ chunks.flatten)
    have hsp := splitNN_append (buf ++ ch) chunks.flatten
    simp only [List.foldl_cons, feedChunk]
    rw [ih _ _ hbuf2]
    simp only [Prod.mk.injEq]
    constructor
    · rw [List.flatten_cons, ← List.append_assoc, hsp, List.dropLast_append]
      have hne2b : ¬ ((splitNN ((splitNN (buf ++ ch)).getLastD [] ++
          chunks.flatten)).isEmpty = true) := by
        simpa [List.isEmpty_iff] using hne2
      rw [if_neg hne2b]
      simp only [segPayloads, List.filterMap_append, List.append_assoc]
    · rw [List.flatten_cons, ← List.append_assoc, hsp, getLastD_append_ne_nil hne2]

theorem runStream_eq (chunks : List (List Char)) :
    runStream chunks = segPayloads (splitNN chunks.flatten) := by
  unfold runStream
  rw [feed_fold chunks [] [] rfl]
  simp only [List.nil_append]
  have hne := splitNN_ne_nil chunks.flatten
  have hlast : splitNN ((splitNN chunks.flatten).getLastD []) =
      [(splitNN chunks.flatten).getLastD []] :=
    splitNN_seg chunks.flatten _ (getLastD_mem hne [])
  have hS : (splitNN chunks.flatten).dropLast ++ [(splitNN chunks.flatten).getLastD []] =
      splitNN chunks.flatten := dropLast_append_getLastD hne []
  split
  · rw [hlast]
    conv_rhs => rw [← hS]
    simp only [segPayloads, List.filterMap_append]
  · next htrim =>
    have htrim2 : trimChars ((splitNN chunks.flatten).getLastD []) = [] := by
      by_contra hc
      exact htrim hc
    have hnone : segPayload ((splitNN chunks.flatten).getLastD []) = none := by
      simp only [segPayload]
      rw [htrim2]
      rfl
    conv_rhs => rw [← hS]
    simp only [segPayloads, List.filterMap_append, List.filterMap_cons, hnone]
    simp

theorem segPayload_ne_done {seg p : List Char} (h : segPayload seg = some p) :
    p ≠ doneMarker := by
  simp only [segPayload] at h
  split at h
  · split at h
    · cases h
    · next hne =>
      cases h
      exact hne
  · cases h

theorem runStream_not_done (chunks : List (List Char)) :
    ∀ p ∈ runStream chunks, p ≠ doneMarker := by
  intro p hp
  rw [runStream_eq] at hp
  simp only [segPayloads] at hp
  obtain ⟨seg, _, hseg⟩ := List.mem_filterMap.mp hp
  exact segPayload_ne_done hseg

/-- C4: the carryover-buffer loop is split-invariant.  For any two chunk
slicings that preserve the stream text, the emitted payload sequences are
equal; moreover the sequence always equals the payloads of the double
line-break segmentation of the whole text (so fragment order matches
backend delivery order and no fragment is duplicated), and the terminal
"[DONE]" marker is never emitted as a fragment.  JSON parsing is applied
per payload, so the equalities carry over to the parsed fragment
sequences. -/
theorem stream_relay_split_invariance (chunks1 chunks2 : List (List Char))
    (h : chunks1.flatten = chunks2.flatten) :
    runStream chunks1 = runStream chunks2 ∧
    runStream chunks1 = segPayloads (splitNN chunks1.flatten) ∧
    ∀ p ∈ runStream chunks1, p ≠ doneMarker :=
  ⟨by rw [runStream_eq, runStream_eq, h], runStream_eq chunks1, runStream_not_done chunks1⟩

/-- C4 witness: a two-chunk slicing that cuts a fragment in half agrees
with the unsliced stream. -/
theorem stream_relay_split_invariance_witness :
    (["data: x\n\nda".data, "ta: y\n\n".data] : List (List Char)).flatten =
      (["data: x\n\ndata: y\n\n".data] : List (List Char)).flatten ∧
    runStream ["data: x\n\nda".data, "ta: y\n\n".data] =
      runStream ["data: x\n\ndata: y\n\n".data] :=
  ⟨by decide, (stream_relay_split_invariance ["data: x\n\nda".data, "ta: y\n\n".data]
    ["data: x\n\ndata: y\n\n".data] (by decide)).1⟩

/-- C10 witness: a concrete two-entry table with an absent and a present
id. -/
theorem remove_connection_idempotent_witness :
    ((removeConnection [("a", exConnAuthed)] "b").1 = [("a", exConnAuthed)]) ∧
    ((removeConnection [("a", exConnAuthed)] "a").1.all (fun p => p.1 ≠ "a")) = true :=
  ⟨(remove_connection_idempotent [("a", exConnAuthed)] "b").1 (by decide),
   (remove_connection_idempotent [("a", exConnAuthed)] "a").2.1⟩

end GoodNeighbor
